import Mathlib

/-!
Verification of the schema-driven feature-row builder and prediction
invocation of `src/app.py` (house price demo).

Modelling conventions of the shallow embedding:
* Python floats are modelled as rationals (`ℚ`); the demo's arithmetic is
  exact at this granularity and every tolerance in play (±1e-3) dwarfs
  float rounding.
* `np.nan`, the missing-value sentinel, is `none`; a supplied value `v` is
  `some v`, so a cell holds an `Option ℚ`.
* A Python dict built as `{c: np.nan for c in FEATURES}` and then updated
  in place is an ordered association list `List (String × Option ℚ)`:
  insertion order is the schema order, and `put_if_present` rewrites the
  value of an existing key without touching the key sequence, exactly as
  `d[name] = value` does on a dict that already holds `name`.
* The Streamlit globals (`FEATURES` and the widget values) become explicit
  arguments: `build_input_row` takes the schema and a `RawInputs` record.
* Exceptions raised by the external pipeline propagate through `Except`.
-/

/-- Property-type labels offered by the UI selectbox (app.py lines 38-42). -/
inductive PropertyType
  | House
  | Apartment_Unit_Flat_Studio
  | Townhouse
  | Villa
  | Land
deriving DecidableEq

/-- Sale-method labels offered by the UI selectbox (app.py lines 44-48). -/
inductive SaleMethod
  | Private_treaty
  | Auction
  | Prior_auction
  | Active_listed
deriving DecidableEq

/-- The raw user inputs collected by the widgets (app.py lines 22-48).
Counts are naturals (the widgets clamp them to non-negative integers);
areas and distances are rationals in place of floats. -/
structure RawInputs where
  beds : ℕ
  baths : ℕ
  parking : ℕ
  land_size : ℚ
  distance_to_cbd : ℚ
  nearest_supermarket : ℚ
  nearest_train : ℚ
  nearest_bus : ℚ
  nearest_park : ℚ
  property_type : PropertyType
  sale_method : SaleMethod
deriving DecidableEq

/-- A feature row: ordered mapping from column names to cells, where a
cell is `none` (the NaN sentinel) or `some v`. -/
abbrev Row := List (String × Option ℚ)

/-- `rooms_total = int(beds + baths + parking)` (app.py line 49). -/
def rooms_total (r : RawInputs) : ℕ := r.beds + r.baths + r.parking

/-- The epsilon `1e-6` offsetting each amenity distance (app.py lines 50-55). -/
def EPS : ℚ := 1 / 1000000

/-- `amenity_access_index` (app.py lines 50-55): sum of inverse offset
distances to the four amenities. -/
def amenity_access_index (r : RawInputs) : ℚ :=
  1 / (EPS + r.nearest_supermarket) + 1 / (EPS + r.nearest_train)
    + 1 / (EPS + r.nearest_bus) + 1 / (EPS + r.nearest_park)

/-- The four denominators appearing in `amenity_access_index`. -/
def amenity_denominators (r : RawInputs) : List ℚ :=
  [EPS + r.nearest_supermarket, EPS + r.nearest_train,
   EPS + r.nearest_bus, EPS + r.nearest_park]

/-- `PT_COLS` (app.py lines 58-64): label → one-hot column name. -/
def PT_COLS : PropertyType → String
  | .House => "property_type_house"
  | .Apartment_Unit_Flat_Studio => "property_type_apartment_unit_flat_studio"
  | .Townhouse => "property_type_townhouse"
  | .Villa => "property_type_villa"
  | .Land => "property_type_land"

/-- `PT_COLS.values()` in dict insertion order (app.py lines 58-64). -/
def PT_COLS_values : List String :=
  ["property_type_house", "property_type_apartment_unit_flat_studio",
   "property_type_townhouse", "property_type_villa", "property_type_land"]

/-- `SM_COLS` (app.py lines 65-70): label → one-hot column name. -/
def SM_COLS : SaleMethod → String
  | .Private_treaty => "sale_method_private_treaty"
  | .Auction => "sale_method_auction"
  | .Prior_auction => "sale_method_prior_auction"
  | .Active_listed => "sale_method_active"

/-- `SM_COLS.values()` in dict insertion order (app.py lines 65-70). -/
def SM_COLS_values : List String :=
  ["sale_method_private_treaty", "sale_method_auction",
   "sale_method_prior_auction", "sale_method_active"]

/-- `put_if_present` (app.py lines 72-75): `if name in d: d[name] = value`.
On the association list this rewrites the cell of every entry whose key is
`name` (a dict holds each key once) and leaves all other entries alone. -/
def put_if_present (d : Row) (name : String) (value : Option ℚ) : Row :=
  d.map fun p => if p.1 = name then (p.1, value) else p

/-- Dict read-out: the cell stored under key `c`, or `none` when `c` is not
a key at all (distinguished from `some none`, a present key holding NaN). -/
def rowLookup (d : Row) (c : String) : Option (Option ℚ) :=
  (d.find? fun p => p.1 == c).map Prod.snd

/-- `build_input_row` (app.py lines 77-108): start from every schema column
bound to the sentinel, then conditionally fill scalars, derived fields and
the two one-hot families.  The final `pd.DataFrame([data], columns=FEATURES)`
re-emits the dict in schema order, which is already the dict's insertion
order, so the association list itself is the result. -/
def build_input_row (FEATURES : List String) (r : RawInputs) : Row :=
  let data : Row := FEATURES.map fun c => (c, none)
  let data := put_if_present data "beds" (some r.beds)
  let data := put_if_present data "baths" (some r.baths)
  let data := put_if_present data "parking" (some r.parking)
  let data := put_if_present data "land_size" (some r.land_size)
  let data := put_if_present data "distance_to_cbd" (some r.distance_to_cbd)
  let data := put_if_present data "rooms_total" (some (rooms_total r))
  let data := put_if_present data "nearest_supermarket" (some r.nearest_supermarket)
  let data := put_if_present data "nearest_train" (some r.nearest_train)
  let data := put_if_present data "nearest_bus" (some r.nearest_bus)
  let data := put_if_present data "nearest_park" (some r.nearest_park)
  let data := put_if_present data "amenity_access_index" (some (amenity_access_index r))
  let data := PT_COLS_values.foldl (fun d col => put_if_present d col (some 0)) data
  let data := put_if_present data (PT_COLS r.property_type) (some 1)
  let data := SM_COLS_values.foldl (fun d col => put_if_present d col (some 0)) data
  let data := put_if_present data (SM_COLS r.sale_method) (some 1)
  data

/-- The predict-button handler (app.py lines 112-115): build the row, call
the external pipeline on it, surface its single numeric result.  The
pipeline is opaque and may fail; the handler installs no recovery. -/
def predict_button_click (pipe : Row → Except String ℚ)
    (FEATURES : List String) (r : RawInputs) : Except String ℚ := do
  let X_row := build_input_row FEATURES r
  let yhat ← pipe X_row
  return yhat

/-- Replace only the property-type selection of a raw-inputs record. -/
def setPropertyType (r : RawInputs) (p : PropertyType) : RawInputs :=
  ⟨r.beds, r.baths, r.parking, r.land_size, r.distance_to_cbd,
   r.nearest_supermarket, r.nearest_train, r.nearest_bus, r.nearest_park,
   p, r.sale_method⟩

/-- Replace only the sale-method selection of a raw-inputs record. -/
def setSaleMethod (r : RawInputs) (m : SaleMethod) : RawInputs :=
  ⟨r.beds, r.baths, r.parking, r.land_size, r.distance_to_cbd,
   r.nearest_supermarket, r.nearest_train, r.nearest_bus, r.nearest_park,
   r.property_type, m⟩

/-- The column names some population rule of `build_input_row` writes to:
the raw scalar fields, the two derived fields, and both one-hot families. -/
def explicitly_set_columns : List String :=
  ["beds", "baths", "parking", "land_size", "distance_to_cbd", "rooms_total",
   "nearest_supermarket", "nearest_train", "nearest_bus", "nearest_park",
   "amenity_access_index"] ++ PT_COLS_values ++ SM_COLS_values

/-- A sample raw-inputs record matching the widget defaults. -/
def sampleInputs : RawInputs :=
  ⟨3, 2, 1, 400, 10, 8/10, 12/10, 3/10, 5/10, .House, .Auction⟩

/-- The first stage of `build_input_row` (app.py lines 78-94): sentinel
initialization followed by the conditional scalar and derived-field
writes, spelled out for decomposition proofs. -/
def scalar_stage (FEATURES : List String) (r : RawInputs) : Row :=
  put_if_present (put_if_present (put_if_present (put_if_present
    (put_if_present (put_if_present (put_if_present (put_if_present
      (put_if_present (put_if_present (put_if_present
        (FEATURES.map fun c => (c, none))
        "beds" (some r.beds))
        "baths" (some r.baths))
        "parking" (some r.parking))
        "land_size" (some r.land_size))
        "distance_to_cbd" (some r.distance_to_cbd))
        "rooms_total" (some (rooms_total r)))
        "nearest_supermarket" (some r.nearest_supermarket))
        "nearest_train" (some r.nearest_train))
        "nearest_bus" (some r.nearest_bus))
        "nearest_park" (some r.nearest_park))
        "amenity_access_index" (some (amenity_access_index r))

/-- A pipeline stand-in that always fails, as a strict artifact would on a
row missing a required column. -/
def failingPipe : Row → Except String ℚ :=
  fun _ => Except.error "schema mismatch"

theorem keys_put (d : Row) (n : String) (v : Option ℚ) :
    (put_if_present d n v).map Prod.fst = d.map Prod.fst := by
  induction d with
  | nil => rfl
  | cons p ps ih =>
    simp only [put_if_present, List.map_cons] at *
    by_cases h : p.1 = n <;> simp [h, ih]

theorem put_not_mem (d : Row) (n : String) (v : Option ℚ)
    (h : n ∉ d.map Prod.fst) : put_if_present d n v = d := by
  induction d with
  | nil => rfl
  | cons p ps ih =>
    simp only [List.map_cons, List.mem_cons, not_or] at h
    simp only [put_if_present, List.map_cons] at *
    rw [if_neg (fun hp => h.1 hp.symm)]
    exact congrArg _ (ih h.2)

theorem rowLookup_cons (q : String × Option ℚ) (t : Row) (c : String) :
    rowLookup (q :: t) c = if q.1 = c then some q.2 else rowLookup t c := by
  simp only [rowLookup, List.find?]
  by_cases h : q.1 = c
  · simp [h]
  · rw [show (q.1 == c) = false from beq_eq_false_iff_ne.mpr h, if_neg h]

theorem rowLookup_put_ne (d : Row) (n : String) (v : Option ℚ) (c : String)
    (h : c ≠ n) : rowLookup (put_if_present d n v) c = rowLookup d c := by
  induction d with
  | nil => rfl
  | cons p ps ih =>
    simp only [put_if_present, List.map_cons] at *
    rw [rowLookup_cons, rowLookup_cons]
    by_cases hp : p.1 = n
    · have hpc : p.1 ≠ c := fun hc => h (hc ▸ hp)
      rw [if_pos hp]
      simp only [if_neg hpc]
      exact ih
    · rw [if_neg hp]
      by_cases hc : p.1 = c
      · rw [if_pos hc, if_pos hc]
      · rw [if_neg hc, if_neg hc]
        exact ih

theorem rowLookup_put_self (d : Row) (n : String) (v : Option ℚ)
    (h : n ∈ d.map Prod.fst) : rowLookup (put_if_present d n v) n = some v := by
  induction d with
  | nil => simp at h
  | cons p ps ih =>
    simp only [List.map_cons, List.mem_cons] at h
    simp only [put_if_present, List.map_cons] at *
    rw [rowLookup_cons]
    by_cases hp : p.1 = n
    · simp [hp]
    · rw [if_neg hp, if_neg hp]
      exact ih (h.resolve_left fun hn => hp hn.symm)

theorem keys_foldzero (cols : List String) (d : Row) (v : Option ℚ) :
    ((cols.foldl (fun a col => put_if_present a col v) d).map Prod.fst)
      = d.map Prod.fst := by
  induction cols generalizing d with
  | nil => rfl
  | cons x xs ih => rw [List.foldl_cons, ih, keys_put]

theorem rowLookup_foldzero_notmem (cols : List String) (d : Row)
    (v : Option ℚ) (c : String) (h : c ∉ cols) :
    rowLookup (cols.foldl (fun a col => put_if_present a col v) d) c
      = rowLookup d c := by
  induction cols generalizing d with
  | nil => rfl
  | cons x xs ih =>
    simp only [List.mem_cons, not_or] at h
    rw [List.foldl_cons, ih _ h.2, rowLookup_put_ne _ _ _ _ h.1]

theorem rowLookup_foldzero_mem (cols : List String) (d : Row)
    (v : Option ℚ) (c : String) (hc : c ∈ cols) (hm : c ∈ d.map Prod.fst) :
    rowLookup (cols.foldl (fun a col => put_if_present a col v) d) c
      = some v := by
  induction cols generalizing d with
  | nil => simp at hc
  | cons x xs ih =>
    rw [List.foldl_cons]
    by_cases hxs : c ∈ xs
    · exact ih _ hxs (by rw [keys_put]; exact hm)
    · have hx : c = x := (List.mem_cons.mp hc).resolve_right hxs
      rw [rowLookup_foldzero_notmem _ _ _ _ hxs, hx,
        rowLookup_put_self _ _ _ (hx ▸ hm)]

theorem keys_init (S : List String) :
    ((S.map fun c => ((c, none) : String × Option ℚ)).map Prod.fst) = S := by
  induction S with
  | nil => rfl
  | cons x xs ih => simp only [List.map_cons, ih]

theorem rowLookup_init (S : List String) (c : String) (h : c ∈ S) :
    rowLookup (S.map fun c => ((c, none) : String × Option ℚ)) c
      = some none := by
  induction S with
  | nil => simp at h
  | cons x xs ih =>
    simp only [List.map_cons, rowLookup, List.find?]
    by_cases hx : x = c
    · simp [hx]
    · rw [show (x == c) = false by simpa using hx]
      exact ih ((List.mem_cons.mp h).resolve_left fun hc => hx hc.symm)

theorem PT_COLS_mem (p : PropertyType) : PT_COLS p ∈ PT_COLS_values := by
  cases p <;> simp [PT_COLS, PT_COLS_values]

theorem SM_COLS_mem (m : SaleMethod) : SM_COLS m ∈ SM_COLS_values := by
  cases m <;> simp [SM_COLS, SM_COLS_values]

theorem PT_SM_disjoint : ∀ x ∈ PT_COLS_values, x ∉ SM_COLS_values := by decide

theorem keys_build (S : List String) (r : RawInputs) :
    (build_input_row S r).map Prod.fst = S := by
  simp only [build_input_row]
  simp only [keys_put, keys_foldzero, keys_init]

theorem rowLookup_build_pt (S : List String) (r : RawInputs) (c : String)
    (hc : c ∈ PT_COLS_values) (hS : c ∈ S) :
    rowLookup (build_input_row S r) c
      = some (if c = PT_COLS r.property_type then some 1 else some 0) := by
  have hsm : c ∉ SM_COLS_values := PT_SM_disjoint c hc
  have hsmne : c ≠ SM_COLS r.sale_method :=
    fun he => hsm (he ▸ SM_COLS_mem r.sale_method)
  simp only [build_input_row]
  rw [rowLookup_put_ne _ _ _ _ hsmne, rowLookup_foldzero_notmem _ _ _ _ hsm]
  by_cases h : c = PT_COLS r.property_type
  · rw [if_pos h, ← h]
    exact rowLookup_put_self _ _ _
      (by simp only [keys_put, keys_foldzero, keys_init]; exact hS)
  · rw [if_neg h, rowLookup_put_ne _ _ _ _ h]
    exact rowLookup_foldzero_mem _ _ _ _ hc
      (by simp only [keys_put, keys_init]; exact hS)

theorem rowLookup_build_sm (S : List String) (r : RawInputs) (c : String)
    (hc : c ∈ SM_COLS_values) (hS : c ∈ S) :
    rowLookup (build_input_row S r) c
      = some (if c = SM_COLS r.sale_method then some 1 else some 0) := by
  simp only [build_input_row]
  by_cases h : c = SM_COLS r.sale_method
  · rw [if_pos h, ← h]
    exact rowLookup_put_self _ _ _
      (by simp only [keys_put, keys_foldzero, keys_init]; exact hS)
  · rw [if_neg h, rowLookup_put_ne _ _ _ _ h]
    exact rowLookup_foldzero_mem _ _ _ _ hc
      (by simp only [keys_put, keys_foldzero, keys_init]; exact hS)

theorem rowLookup_build_rooms_total (S : List String) (r : RawInputs)
    (h : "rooms_total" ∈ S) :
    rowLookup (build_input_row S r) "rooms_total"
      = some (some ((rooms_total r : ℚ))) := by
  have hpt : ("rooms_total" : String) ∉ PT_COLS_values := by decide
  have hsm : ("rooms_total" : String) ∉ SM_COLS_values := by decide
  have hptne : ("rooms_total" : String) ≠ PT_COLS r.property_type :=
    fun he => hpt (he ▸ PT_COLS_mem r.property_type)
  have hsmne : ("rooms_total" : String) ≠ SM_COLS r.sale_method :=
    fun he => hsm (he ▸ SM_COLS_mem r.sale_method)
  have e1 : ("rooms_total" : String) ≠ "amenity_access_index" := by decide
  have e2 : ("rooms_total" : String) ≠ "nearest_park" := by decide
  have e3 : ("rooms_total" : String) ≠ "nearest_bus" := by decide
  have e4 : ("rooms_total" : String) ≠ "nearest_train" := by decide
  have e5 : ("rooms_total" : String) ≠ "nearest_supermarket" := by decide
  simp only [build_input_row]
  rw [rowLookup_put_ne _ _ _ _ hsmne, rowLookup_foldzero_notmem _ _ _ _ hsm,
    rowLookup_put_ne _ _ _ _ hptne, rowLookup_foldzero_notmem _ _ _ _ hpt,
    rowLookup_put_ne _ _ _ _ e1, rowLookup_put_ne _ _ _ _ e2,
    rowLookup_put_ne _ _ _ _ e3, rowLookup_put_ne _ _ _ _ e4,
    rowLookup_put_ne _ _ _ _ e5]
  exact rowLookup_put_self _ _ _ (by simp only [keys_put, keys_init]; exact h)

theorem rowLookup_build_amenity (S : List String) (r : RawInputs)
    (h : "amenity_access_index" ∈ S) :
    rowLookup (build_input_row S r) "amenity_access_index"
      = some (some (amenity_access_index r)) := by
  have hpt : ("amenity_access_index" : String) ∉ PT_COLS_values := by decide
  have hsm : ("amenity_access_index" : String) ∉ SM_COLS_values := by decide
  have hptne : ("amenity_access_index" : String) ≠ PT_COLS r.property_type :=
    fun he => hpt (he ▸ PT_COLS_mem r.property_type)
  have hsmne : ("amenity_access_index" : String) ≠ SM_COLS r.sale_method :=
    fun he => hsm (he ▸ SM_COLS_mem r.sale_method)
  simp only [build_input_row]
  rw [rowLookup_put_ne _ _ _ _ hsmne, rowLookup_foldzero_notmem _ _ _ _ hsm,
    rowLookup_put_ne _ _ _ _ hptne, rowLookup_foldzero_notmem _ _ _ _ hpt]
  exact rowLookup_put_self _ _ _ (by simp only [keys_put, keys_init]; exact h)

theorem build_input_row_unset_aux (S : List String) (r : RawInputs)
    (c : String) (h1 : c ∈ S) (h2 : c ∉ explicitly_set_columns) :
    rowLookup (build_input_row S r) c = some none := by
  simp only [explicitly_set_columns, List.mem_append, not_or] at h2
  obtain ⟨⟨h11, hpt⟩, hsm⟩ := h2
  simp only [List.mem_cons, List.not_mem_nil, or_false, not_or] at h11
  obtain ⟨hb, hba, hpk, hls, hdc, hrt, hns, hnt, hnb, hnp, hai⟩ := h11
  have hptne : c ≠ PT_COLS r.property_type :=
    fun he => hpt (he ▸ PT_COLS_mem r.property_type)
  have hsmne : c ≠ SM_COLS r.sale_method :=
    fun he => hsm (he ▸ SM_COLS_mem r.sale_method)
  simp only [build_input_row]
  rw [rowLookup_put_ne _ _ _ _ hsmne, rowLookup_foldzero_notmem _ _ _ _ hsm,
    rowLookup_put_ne _ _ _ _ hptne, rowLookup_foldzero_notmem _ _ _ _ hpt,
    rowLookup_put_ne _ _ _ _ hai, rowLookup_put_ne _ _ _ _ hnp,
    rowLookup_put_ne _ _ _ _ hnb, rowLookup_put_ne _ _ _ _ hnt,
    rowLookup_put_ne _ _ _ _ hns, rowLookup_put_ne _ _ _ _ hrt,
    rowLookup_put_ne _ _ _ _ hdc, rowLookup_put_ne _ _ _ _ hls,
    rowLookup_put_ne _ _ _ _ hpk, rowLookup_put_ne _ _ _ _ hba,
    rowLookup_put_ne _ _ _ _ hb]
  exact rowLookup_init _ _ h1

theorem build_decomp (S : List String) (r : RawInputs) :
    build_input_row S r
      = put_if_present
          (SM_COLS_values.foldl (fun d col => put_if_present d col (some 0))
            (put_if_present
              (PT_COLS_values.foldl (fun d col => put_if_present d col (some 0))
                (scalar_stage S r))
              (PT_COLS r.property_type) (some 1)))
          (SM_COLS r.sale_method) (some 1) := rfl

theorem keys_scalar_stage (S : List String) (r : RawInputs) :
    (scalar_stage S r).map Prod.fst = S := by
  simp only [scalar_stage, keys_put, keys_init]

theorem scalar_stage_setPropertyType (S : List String) (r : RawInputs)
    (p : PropertyType) : scalar_stage S (setPropertyType r p) = scalar_stage S r := rfl

theorem scalar_stage_setSaleMethod (S : List String) (r : RawInputs)
    (m : SaleMethod) : scalar_stage S (setSaleMethod r m) = scalar_stage S r := rfl

/-- C1: for every schema `S` (non-empty, duplicate-free column names) and
raw inputs `r`, `build_input_row S r` returns a row whose key sequence is
exactly `S`: no extra keys, no missing keys, in exactly `S`'s order. -/
theorem build_input_row_key_order (S : List String) (r : RawInputs)
    (_h1 : S ≠ []) (_h2 : S.Nodup) :
    (build_input_row S r).map Prod.fst = S := keys_build S r

theorem build_input_row_key_order_witness :
    (build_input_row ["beds", "rooms_total", "unknown_extra"] sampleInputs).map Prod.fst
      = ["beds", "rooms_total", "unknown_extra"] :=
  build_input_row_key_order _ sampleInputs (by decide) (by decide)

/-- C3: whenever `"rooms_total"` is a schema column, the built row binds it
to `beds + baths + parking` as an integer. -/
theorem build_input_row_rooms_total (S : List String) (r : RawInputs)
    (h : "rooms_total" ∈ S) :
    rowLookup (build_input_row S r) "rooms_total"
      = some (some (((r.beds + r.baths + r.parking : ℕ) : ℚ))) ∧
    rooms_total r = r.beds + r.baths + r.parking :=
  ⟨rowLookup_build_rooms_total S r h, rfl⟩

theorem build_input_row_rooms_total_witness :
    rowLookup (build_input_row ["rooms_total"] sampleInputs) "rooms_total"
      = some (some (6 : ℚ)) := by
  rw [(build_input_row_rooms_total ["rooms_total"] sampleInputs (by decide)).1]
  decide

/-- C4: whenever `"amenity_access_index"` is a schema column, the built row
binds it to the sum of the four inverse offset distances with epsilon 1e-6;
at distances (0.8, 1.2, 0.3, 0.5) the value is within 1e-3 of 7.417. -/
theorem build_input_row_amenity (S : List String) (r : RawInputs)
    (h : "amenity_access_index" ∈ S) :
    rowLookup (build_input_row S r) "amenity_access_index"
      = some (some (1 / (1/1000000 + r.nearest_supermarket)
          + 1 / (1/1000000 + r.nearest_train)
          + 1 / (1/1000000 + r.nearest_bus)
          + 1 / (1/1000000 + r.nearest_park))) ∧
    |amenity_access_index sampleInputs - 7417 / 1000| ≤ 1 / 1000 := by
  refine ⟨rowLookup_build_amenity S r h, ?_⟩
  rw [show amenity_access_index sampleInputs
      = 1 / (1/1000000 + 8/10) + 1 / (1/1000000 + 12/10)
        + 1 / (1/1000000 + 3/10) + 1 / (1/1000000 + 5/10) from rfl,
    abs_le]
  constructor <;> norm_num

theorem build_input_row_amenity_witness :
    rowLookup (build_input_row ["amenity_access_index"] sampleInputs)
        "amenity_access_index"
      = some (some (1 / (1/1000000 + (8 : ℚ)/10) + 1 / (1/1000000 + 12/10)
          + 1 / (1/1000000 + 3/10) + 1 / (1/1000000 + 5/10))) :=
  (build_input_row_amenity ["amenity_access_index"] sampleInputs (by decide)).1

/-- C6: every schema column that no population rule writes to (not a raw
scalar field, not a derived field, not a one-hot family column) stays bound
to the missing-value sentinel in the built row. -/
theorem build_input_row_unset (S : List String) (r : RawInputs) (c : String)
    (h1 : c ∈ S) (h2 : c ∉ explicitly_set_columns) :
    rowLookup (build_input_row S r) c = some none :=
  build_input_row_unset_aux S r c h1 h2

theorem build_input_row_unset_witness :
    rowLookup (build_input_row ["mystery_column"] sampleInputs) "mystery_column"
      = some none :=
  build_input_row_unset ["mystery_column"] sampleInputs "mystery_column"
    (by decide) (by decide)

/-- C8: when the external pipeline raises on the built row, the predict
handler surfaces exactly that error: no retry, no fallback, and no
numeric estimate is produced in its place. -/
theorem predict_button_click_propagates (pipe : Row → Except String ℚ)
    (S : List String) (r : RawInputs) (e : String)
    (h : pipe (build_input_row S r) = Except.error e) :
    predict_button_click pipe S r = Except.error e ∧
    ∀ q : ℚ, predict_button_click pipe S r ≠ Except.ok q := by
  have hmain : predict_button_click pipe S r = Except.error e := by
    show Except.bind (pipe (build_input_row S r)) (fun y => Except.ok y)
      = Except.error e
    rw [h]
    rfl
  exact ⟨hmain, fun q hq => by rw [hmain] at hq; exact Except.noConfusion hq⟩

theorem predict_button_click_propagates_witness :
    predict_button_click failingPipe ["beds"] sampleInputs
      = Except.error "schema mismatch" :=
  (predict_button_click_propagates failingPipe ["beds"] sampleInputs
    "schema mismatch" rfl).1

/-- C9: `put_if_present` never changes the key sequence; on an absent key
it is the identity, and on a present key it changes only that key's cell,
leaving every other key's cell as it was. -/
theorem put_if_present_frame (d : Row) (n : String) (v : Option ℚ) :
    (put_if_present d n v).map Prod.fst = d.map Prod.fst ∧
    (n ∉ d.map Prod.fst → put_if_present d n v = d) ∧
    (∀ c : String, c ≠ n →
      rowLookup (put_if_present d n v) c = rowLookup d c) ∧
    (n ∈ d.map Prod.fst → rowLookup (put_if_present d n v) n = some v) :=
  ⟨keys_put d n v, put_not_mem d n v,
    fun c hc => rowLookup_put_ne d n v c hc, rowLookup_put_self d n v⟩

theorem put_if_present_frame_witness :
    rowLookup (put_if_present [("a", (none : Option ℚ)), ("b", some 5)]
        "b" (some 2)) "a"
      = rowLookup [("a", (none : Option ℚ)), ("b", some 5)] "a" ∧
    put_if_present [("a", (none : Option ℚ))] "b" (some 2)
      = [("a", (none : Option ℚ))] ∧
    rowLookup (put_if_present [("a", (none : Option ℚ)), ("b", some 5)]
        "b" (some 2)) "b"
      = some (some 2) :=
  ⟨(put_if_present_frame [("a", none), ("b", some 5)] "b" (some 2)).2.2.1
      "a" (by decide),
    (put_if_present_frame [("a", none)] "b" (some 2)).2.1 (by decide),
    (put_if_present_frame [("a", none), ("b", some 5)] "b" (some 2)).2.2.2
      (by decide)⟩

/-- C10: when the four amenity distances are non-negative (as the widget
bounds guarantee), every denominator `1e-6 + d` in the
`amenity_access_index` computation is strictly positive, so no term
divides by zero. -/
theorem amenity_denominators_pos (r : RawInputs)
    (h1 : 0 ≤ r.nearest_supermarket) (h2 : 0 ≤ r.nearest_train)
    (h3 : 0 ≤ r.nearest_bus) (h4 : 0 ≤ r.nearest_park) :
    (∀ q ∈ amenity_denominators r, 0 < q) ∧
    amenity_access_index r
      = (amenity_denominators r).foldr (fun q a => 1 / q + a) 0 := by
  constructor
  · intro q hq
    have heps : (0 : ℚ) < EPS := by norm_num [EPS]
    simp only [amenity_denominators, List.mem_cons, List.not_mem_nil,
      or_false] at hq
    rcases hq with h | h | h | h <;> rw [h] <;> linarith
  · simp only [amenity_access_index, amenity_denominators, List.foldr]
    ring

theorem amenity_denominators_pos_witness :
    (∀ q ∈ amenity_denominators sampleInputs, 0 < q) ∧
    amenity_access_index sampleInputs
      = (amenity_denominators sampleInputs).foldr (fun q a => 1 / q + a) 0 :=
  amenity_denominators_pos sampleInputs (by norm_num [sampleInputs])
    (by norm_num [sampleInputs]) (by norm_num [sampleInputs])
    (by norm_num [sampleInputs])

/-- C2 counterexample: with schema `["property_type_house"]` and the
Townhouse selection, the mapped column `property_type_townhouse` is absent
from the schema, and then no property-type column present in the schema
holds value 1 — so "exactly one property_type_* column present in S has
value 1" fails as a statement about every schema and selection. -/
theorem build_input_row_onehot_counterexample :
    PT_COLS_values.countP (fun c =>
      decide (c ∈ ["property_type_house"]) &&
      decide (rowLookup (build_input_row ["property_type_house"]
          (setPropertyType sampleInputs PropertyType.Townhouse)) c
        = some (some 1))) = 0 := by decide

/-- C2 (amended): whenever the one-hot column mapped from the selected
`property_type` is itself present in `S`, exactly one `property_type_*`
column present in `S` holds value 1 and every other `property_type_*`
column present in `S` holds value 0; same for the `sale_method_*` family
when the column mapped from the selected `sale_method` is present. -/
theorem build_input_row_onehot_exclusive (S : List String) (r : RawInputs) :
    (PT_COLS r.property_type ∈ S →
      ∃ c, c ∈ PT_COLS_values ∧ c ∈ S ∧
        rowLookup (build_input_row S r) c = some (some 1) ∧
        ∀ c', c' ∈ PT_COLS_values → c' ∈ S → c' ≠ c →
          rowLookup (build_input_row S r) c' = some (some 0)) ∧
    (SM_COLS r.sale_method ∈ S →
      ∃ c, c ∈ SM_COLS_values ∧ c ∈ S ∧
        rowLookup (build_input_row S r) c = some (some 1) ∧
        ∀ c', c' ∈ SM_COLS_values → c' ∈ S → c' ≠ c →
          rowLookup (build_input_row S r) c' = some (some 0)) := by
  refine ⟨fun hpt => ⟨PT_COLS r.property_type, PT_COLS_mem _, hpt, ?_, ?_⟩,
    fun hsm => ⟨SM_COLS r.sale_method, SM_COLS_mem _, hsm, ?_, ?_⟩⟩
  · rw [rowLookup_build_pt S r _ (PT_COLS_mem _) hpt, if_pos rfl]
  · intro c' hc' hS' hne
    rw [rowLookup_build_pt S r c' hc' hS', if_neg hne]
  · rw [rowLookup_build_sm S r _ (SM_COLS_mem _) hsm, if_pos rfl]
  · intro c' hc' hS' hne
    rw [rowLookup_build_sm S r c' hc' hS', if_neg hne]

theorem build_input_row_onehot_exclusive_witness :
    (∃ c, c ∈ PT_COLS_values ∧
      c ∈ ["property_type_house", "property_type_villa"] ∧
      rowLookup (build_input_row
        ["property_type_house", "property_type_villa"]
        sampleInputs) c = some (some 1) ∧
      ∀ c', c' ∈ PT_COLS_values →
        c' ∈ ["property_type_house", "property_type_villa"] →
        c' ≠ c →
        rowLookup (build_input_row
          ["property_type_house", "property_type_villa"]
          sampleInputs) c' = some (some 0)) ∧
    (∃ c, c ∈ SM_COLS_values ∧
      c ∈ ["property_type_house", "property_type_villa", "sale_method_auction"] ∧
      rowLookup (build_input_row
        ["property_type_house", "property_type_villa", "sale_method_auction"]
        sampleInputs) c = some (some 1) ∧
      ∀ c', c' ∈ SM_COLS_values →
        c' ∈ ["property_type_house", "property_type_villa", "sale_method_auction"] →
        c' ≠ c →
        rowLookup (build_input_row
          ["property_type_house", "property_type_villa", "sale_method_auction"]
          sampleInputs) c' = some (some 0)) :=
  ⟨(build_input_row_onehot_exclusive
      ["property_type_house", "property_type_villa"]
      sampleInputs).1 (by decide),
    (build_input_row_onehot_exclusive
      ["property_type_house", "property_type_villa", "sale_method_auction"]
      sampleInputs).2 (by decide)⟩

/-- C5: when the one-hot column mapped from a selected categorical label is
absent from the schema, the row is still built (its key sequence is the
schema), every family sibling present in the schema stays 0, and the row
does not depend on which absent label was selected. -/
theorem build_input_row_absent_selection (S : List String) (r : RawInputs) :
    ((build_input_row S r).map Prod.fst = S) ∧
    (PT_COLS r.property_type ∉ S →
      (∀ c ∈ PT_COLS_values, c ∈ S →
        rowLookup (build_input_row S r) c = some (some 0)) ∧
      ∀ p : PropertyType, PT_COLS p ∉ S →
        build_input_row S r = build_input_row S (setPropertyType r p)) ∧
    (SM_COLS r.sale_method ∉ S →
      (∀ c ∈ SM_COLS_values, c ∈ S →
        rowLookup (build_input_row S r) c = some (some 0)) ∧
      ∀ m : SaleMethod, SM_COLS m ∉ S →
        build_input_row S r = build_input_row S (setSaleMethod r m)) := by
  refine ⟨keys_build S r, fun hpt => ⟨?_, ?_⟩, fun hsm => ⟨?_, ?_⟩⟩
  · intro c hc hS
    have hne : c ≠ PT_COLS r.property_type := fun he => hpt (he ▸ hS)
    rw [rowLookup_build_pt S r c hc hS, if_neg hne]
  · intro p hp
    have hkeys : ((PT_COLS_values.foldl
        (fun d col => put_if_present d col (some 0))
        (scalar_stage S r)).map Prod.fst) = S := by
      rw [keys_foldzero, keys_scalar_stage]
    have h1 : PT_COLS r.property_type ∉ (PT_COLS_values.foldl
        (fun d col => put_if_present d col (some 0))
        (scalar_stage S r)).map Prod.fst := by rw [hkeys]; exact hpt
    have h2 : PT_COLS p ∉ (PT_COLS_values.foldl
        (fun d col => put_if_present d col (some 0))
        (scalar_stage S r)).map Prod.fst := by rw [hkeys]; exact hp
    rw [build_decomp, build_decomp, scalar_stage_setPropertyType,
      show (setPropertyType r p).sale_method = r.sale_method from rfl,
      show (setPropertyType r p).property_type = p from rfl,
      put_not_mem _ (PT_COLS r.property_type) (some 1) h1,
      put_not_mem _ (PT_COLS p) (some 1) h2]
  · intro c hc hS
    have hne : c ≠ SM_COLS r.sale_method := fun he => hsm (he ▸ hS)
    rw [rowLookup_build_sm S r c hc hS, if_neg hne]
  · intro m hm
    have hkeys : ((SM_COLS_values.foldl
        (fun d col => put_if_present d col (some 0))
        (put_if_present (PT_COLS_values.foldl
          (fun d col => put_if_present d col (some 0))
          (scalar_stage S r)) (PT_COLS r.property_type) (some 1))).map
        Prod.fst) = S := by
      rw [keys_foldzero, keys_put, keys_foldzero, keys_scalar_stage]
    have h1 : SM_COLS r.sale_method ∉ (SM_COLS_values.foldl
        (fun d col => put_if_present d col (some 0))
        (put_if_present (PT_COLS_values.foldl
          (fun d col => put_if_present d col (some 0))
          (scalar_stage S r)) (PT_COLS r.property_type) (some 1))).map
        Prod.fst := by rw [hkeys]; exact hsm
    have h2 : SM_COLS m ∉ (SM_COLS_values.foldl
        (fun d col => put_if_present d col (some 0))
        (put_if_present (PT_COLS_values.foldl
          (fun d col => put_if_present d col (some 0))
          (scalar_stage S r)) (PT_COLS r.property_type) (some 1))).map
        Prod.fst := by rw [hkeys]; exact hm
    rw [build_decomp, build_decomp, scalar_stage_setSaleMethod,
      show (setSaleMethod r m).sale_method = m from rfl,
      show (setSaleMethod r m).property_type = r.property_type from rfl,
      put_not_mem _ (SM_COLS r.sale_method) (some 1) h1,
      put_not_mem _ (SM_COLS m) (some 1) h2]

theorem build_input_row_absent_selection_witness :
    (build_input_row ["beds"] sampleInputs).map Prod.fst = ["beds"] ∧
    build_input_row ["beds"] sampleInputs
      = build_input_row ["beds"]
          (setPropertyType sampleInputs PropertyType.Villa) :=
  ⟨(build_input_row_absent_selection ["beds"] sampleInputs).1,
    ((build_input_row_absent_selection ["beds"] sampleInputs).2.1
      (by decide)).2 PropertyType.Villa (by decide)⟩

/-- C7: the end-to-end scenario: with the seven-column schema and inputs
beds=3, baths=2, parking=1, House, Auction (other raw fields arbitrary),
the built row is exactly the dict given in the spec. -/
theorem build_input_row_scenario (ls dc ns nt nb np : ℚ) :
    build_input_row
      ["beds", "baths", "parking", "rooms_total", "property_type_house",
       "property_type_apartment_unit_flat_studio", "sale_method_auction"]
      ⟨3, 2, 1, ls, dc, ns, nt, nb, np, .House, .Auction⟩
    = [("beds", some 3), ("baths", some 2), ("parking", some 1),
       ("rooms_total", some 6), ("property_type_house", some 1),
       ("property_type_apartment_unit_flat_studio", some 0),
       ("sale_method_auction", some 1)] := by
  simp [build_input_row, put_if_present, rooms_total, PT_COLS, SM_COLS,
    PT_COLS_values, SM_COLS_values, List.foldl]
